import Mathlib

/-!
Shallow embedding of the accreditation-register ingestion pipeline
(`src/boba.py` and `src/proektMAI.py`) and proofs about it.

The embedding keeps the Python names where Lean allows it.  XML elements
are modelled by `Elem` (tag, optional text, children); `ElementTree`'s
`elem.find('Tag')` is the first direct child with that tag.  Python
strings are Lean `String`s, worked on as `List Char` where character-level
reasoning is needed; `str.strip()` is `pyStrip`, and Python's substring
test `needle in hay` is `containsSub hay needle`.
-/

/-- Python `str.strip()` whitespace set (the ASCII part: space, tab,
newline, carriage return, vertical tab, form feed). -/
def isPySpace (c : Char) : Bool :=
  c == ' ' || c == '\t' || c == '\n' || c == '\r' || c == '\x0b' || c == '\x0c'

/-- Drop `isPySpace` characters from the right end of a character list. -/
def stripRightL (l : List Char) : List Char :=
  (l.reverse.dropWhile isPySpace).reverse

/-- Python `str.strip()` on a character list: drop whitespace from both ends. -/
def pyStripL (l : List Char) : List Char :=
  stripRightL (l.dropWhile isPySpace)

/-- Python `str.strip()`. -/
def pyStrip (s : String) : String :=
  ⟨pyStripL s.data⟩

/-- Python substring test `needle in hay` on character lists. -/
def containsSub (hay needle : List Char) : Bool :=
  needle.isPrefixOf hay ||
    match hay with
    | [] => false
    | _ :: t => containsSub t needle

/-- Python `needle in hay` for strings. -/
def subStr (hay needle : String) : Bool :=
  containsSub hay.data needle.data

lemma containsSub_correct (hay needle : List Char) :
    containsSub hay needle = true ↔ needle <:+: hay := by
  induction hay with
  | nil =>
    simp [containsSub, List.isPrefixOf_iff_prefix]
  | cons a t ih =>
    rw [containsSub]
    simp only [Bool.or_eq_true, ih, List.isPrefixOf_iff_prefix]
    rw [List.infix_cons_iff]

/-- A shallow model of an `xml.etree.ElementTree` element: tag name,
optional text node, direct children. -/
structure Elem where
  tag : String
  text : Option String
  children : List Elem

/-- `elem.find('name')`: the first direct child whose tag is `name`. -/
def Elem.findTag (e : Elem) (name : String) : Option Elem :=
  e.children.find? (fun c => c.tag == name)

/-- `safe_text` from `src/boba.py`: trimmed element text when the element
and its text are present, else the caller-supplied default. -/
def safe_text (element : Option Elem) (default : String) : String :=
  match element with
  | some el =>
    match el.text with
    | some t => pyStrip t
    | none => default
  | none => default

/-- `safe_text` from `src/proektMAI.py`: the raw (untrimmed, possibly
absent) element text when the element is present, else the default. -/
def safe_text_mai (element : Option Elem) (default : Option String) : Option String :=
  match element with
  | some el => el.text
  | none => default

/-- `safe_bool` (identical in both source files): strip the text, map
`"1"` to true and `"0"` to false, anything else to `none`. -/
def safe_bool (element : Option Elem) : Option Bool :=
  match element with
  | none => none
  | some el =>
    match el.text with
    | none => none
    | some t =>
      let text := pyStrip t
      if text == "1" then some true
      else if text == "0" then some false
      else none

/-! ### Classifier (`process_organization` in `src/boba.py`, lines 317-360)

The code lowercases the organization's type-name and each program's
level-name (`safe_text(...).lower()`) before matching; the definitions
below take those lowercased strings as input. -/

/-- The secondary-education markers checked first ("Явно исключаем школы"). -/
def secondaryMarkers : List String :=
  ["школа", "лицей", "гимназия", "среднее общеобразовательное",
   "средняя общеобразовательная"]

/-- The higher-education markers checked second. -/
def higherMarkers : List String :=
  ["вуз", "университет", "институт", "высшее учебное заведение", "академия",
   "федеральное государственное", "государственное образовательное",
   "национальный исследовательский", "технологический университет",
   "высшее образование", "бюджетное образовательное учреждение",
   "автономное образовательное учреждение", "государственный университет"]

/-- The higher-education level markers checked against program level names. -/
def higherLevelMarkers : List String :=
  ["бакалавриат", "магистратура", "специалитет", "аспирантура"]

/-- `any(x in type_name for x in markers)`. -/
def anyMarker (markers : List String) (type_name : String) : Bool :=
  markers.any (fun x => subStr type_name x)

/-- Whether some program level name contains a higher-education marker
(the `elif programs:` loop; it breaks at the first match, which is the
same as `any`). -/
def anyHigherLevel (progLevels : List String) : Bool :=
  progLevels.any (fun lv => anyMarker higherLevelMarkers lv)

/-- Organization-type classification from `process_organization`:
`type_name` is the lowercased type-name text, `progLevels` the lowercased
`EduLevelName` texts of the record's programs.  The final Python
`if not org_type_code:` fallback fires exactly when none of the three
earlier branches assigned a code. -/
def org_type_code (type_name : String) (progLevels : List String) : String :=
  if anyMarker secondaryMarkers type_name then "secondary"
  else if anyMarker higherMarkers type_name then "higher"
  else if anyHigherLevel progLevels then "higher"
  else if subStr type_name "колледж" || subStr type_name "техникум" then "secondary_pro"
  else "secondary"

/-! ### Program level/form classification (`process_program` in `src/boba.py`,
lines 396-417), again over the lowercased texts. -/

/-- `level_code` assignment in `process_program`. -/
def level_code (level_name : String) : Option String :=
  if subStr level_name "бакалавр" then some "bachelor"
  else if subStr level_name "магистр" then some "master"
  else if subStr level_name "специалист" || subStr level_name "аспирант" then some "specialist"
  else none

/-- `form_code` assignment in `process_program`. -/
def form_code (form_name : String) : String :=
  if subStr form_name "очная" then "full_time"
  else if subStr form_name "заочная" then "part_time"
  else if subStr form_name "очно-заочная" || subStr form_name "вечерняя" then "mixed"
  else "full_time"

/-! ### Change detector (`check_for_updates`, identical in both files)

The persisted fingerprint map (`state.json`) is an insertion-ordered
map from file path to content hash; the content hash of a file is
abstracted as a function `hashOf` from path to hash.  `saves` counts
`save_state` calls. -/

/-- The persisted `{file_path: fingerprint}` map. -/
abbrev FState := List (String × String)

/-- Python dict assignment `state[k] = v`: update in place, else append. -/
def dictSet (state : FState) (k v : String) : FState :=
  match state with
  | [] => [(k, v)]
  | (k', v') :: rest =>
    if k' == k then (k, v) :: rest else (k', v') :: dictSet rest k v

/-- Result of one `check_for_updates` call: the returned Bool, the
persisted map afterwards, and how many `save_state` calls happened. -/
structure DetectResult where
  changed : Bool
  state : FState
  saves : Nat

/-- `check_for_updates(file_path)`: returns False without touching the
map when the stored fingerprint equals the fresh one, else stores the
fresh fingerprint, saves the map, and returns True. -/
def check_for_updates (hashOf : String → String) (state : FState)
    (file_path : String) : DetectResult :=
  let current_hash := hashOf file_path
  match state.lookup file_path with
  | some h =>
    if h == current_hash then ⟨false, state, 0⟩
    else ⟨true, dictSet state file_path current_hash, 1⟩
  | none => ⟨true, dictSet state file_path current_hash, 1⟩

/-! ### Streaming ingestion driver (`parse_xml_to_db`, both files)

The store session is `committed` rows plus the `pending` uncommitted
batch.  Each `Certificate` record either builds and stages some entities
(with the periodic `len(session.new) % 100 == 0` commit, which may
itself fail) or raises mid-record; the `except` branch rolls the session
back and the loop continues.  Entities are identified by `Nat`. -/

/-- Store session state: committed rows and the uncommitted batch. -/
structure Session where
  committed : List Nat
  pending : List Nat

/-- What processing one `Certificate` element does to the session:
either it stages `ents` new entities (and the periodic commit, if
reached, fails when `commitFails`), or it raises after staging `staged`
entities. -/
inductive RecOutcome
  | ok (ents : List Nat) (commitFails : Bool)
  | fail (staged : List Nat)

/-- One iteration of the `for event, elem in ET.iterparse(...)` loop
body: the `try` block stages entities and commits every time the batch
size hits the threshold; any exception (build failure or commit failure)
lands in `except`, which logs and calls `session.rollback()`. -/
def stepRecord (r : RecOutcome) (s : Session) : Session :=
  match r with
  | .fail _ => { committed := s.committed, pending := [] }
  | .ok ents commitFails =>
    let p := s.pending ++ ents
    if p.length % 100 == 0 then
      if commitFails then { committed := s.committed, pending := [] }
      else { committed := s.committed ++ p, pending := [] }
    else { committed := s.committed, pending := p }

/-- The record loop. -/
def steps (rs : List RecOutcome) (s : Session) : Session :=
  rs.foldl (fun s r => stepRecord r s) s

/-- The whole of `parse_xml_to_db` on the success path: the record loop
followed by the final `session.commit()`. -/
def runDriver (rs : List RecOutcome) (s : Session) : Session :=
  let s' := steps rs s
  { committed := s'.committed ++ s'.pending, pending := [] }

/-! ### Branch-to-parent resolution (`parse_xml_to_db` in `src/boba.py`,
lines 261-268) and the output filter (lines 248-256). -/

/-- A persisted organization row, with the fields the branch query
reads: the primary key, the INN, and the parent link. -/
structure OrgRow where
  oid : String
  inn : String
  parent_id : Option String

/-- `session.query(Organization).filter((Organization.id == org.HeadEduOrgId)
| (Organization.INN == org.HeadEduOrgId)).first()`. -/
def resolveParent (rows : List OrgRow) (headId : String) : Option OrgRow :=
  rows.find? (fun o => o.oid == headId || o.inn == headId)

/-- `session.add(org); session.flush()` followed by the `if org.IsBranch:`
parent lookup.  The flush makes the new row itself visible to the query,
so the query runs over `persisted ++ [base]`.  The row is appended
whether or not a parent is found. -/
def persistOrg (persisted : List OrgRow) (newId inn : String)
    (isBranch : Option Bool) (headId : String) : List OrgRow :=
  let base : OrgRow := ⟨newId, inn, none⟩
  if isBranch == some true then
    match resolveParent (persisted ++ [base]) headId with
    | some p => persisted ++ [{ base with parent_id := some p.oid }]
    | none => persisted ++ [base]
  else persisted ++ [base]

/-- The data the output filter looks at: the resolved organization-type
code and the `IsBranch` flag. -/
structure OrgView where
  code : String
  isBranch : Option Bool

/-- Python truthiness of an `Optional[bool]` (`None` and `False` are falsy). -/
def pyTruthy (b : Option Bool) : Bool := b == some true

/-- The `if org.org_type.code != 'higher' and not org.IsBranch: continue`
filter as a keep-predicate. -/
def keepOrg (o : OrgView) : Bool :=
  !((o.code != "higher") && !(pyTruthy o.isBranch))

/-- The persisted set of the first pipeline variant, restricted to what
the filter decides. -/
def filterOrgs (l : List OrgView) : List OrgView :=
  l.filter keepOrg

/-! ### Date coercion (`safe_date`, identical in both files)

`datetime.strptime` is embedded for the five format patterns the code
tries, following CPython's `_strptime` regexes: `%Y` is exactly four
digits; `%m`, `%d`, `%H`, `%M`, `%S` accept one or two digits with the
ranges of the corresponding regex alternations; a literal space in the
format matches a run of whitespace (`\s+`); `%z` matches `Z` or a signed
`hh[:]mm[[:]ss[.1-6 digits]]` offset; and after the regex match the
`datetime` constructor validates the calendar date, rejects year 0,
seconds above 59, and offsets of 24 hours or more.  `strptime` requires
the whole string to be consumed.  The result keeps only the calendar
date (`dt.date()`), never the time of day. -/

/-- A calendar date as `datetime.date(year, month, day)`. -/
structure PDate where
  year : Nat
  month : Nat
  day : Nat
deriving DecidableEq

def isDigitCh (c : Char) : Bool := '0' ≤ c && c ≤ '9'

def dv (c : Char) : Nat := c.toNat - '0'.toNat

/-- `%Y`: exactly four digits. -/
def parseY4 : List Char → Option (Nat × List Char)
  | a :: b :: c :: d :: rest =>
    if isDigitCh a && isDigitCh b && isDigitCh c && isDigitCh d then
      some (dv a * 1000 + dv b * 100 + dv c * 10 + dv d, rest)
    else none
  | _ => none

/-- `%m`: regex `1[0-2]|0[1-9]|[1-9]`. -/
def parseMonth : List Char → Option (Nat × List Char)
  | a :: b :: rest =>
    if a == '1' && ('0' ≤ b && b ≤ '2') then some (10 + dv b, rest)
    else if a == '0' && ('1' ≤ b && b ≤ '9') then some (dv b, rest)
    else if '1' ≤ a && a ≤ '9' then some (dv a, b :: rest)
    else none
  | [a] => if '1' ≤ a && a ≤ '9' then some (dv a, []) else none
  | [] => none

/-- `%d`: regex `3[01]|[12]\d|0[1-9]|[1-9]`. -/
def parseDay : List Char → Option (Nat × List Char)
  | a :: b :: rest =>
    if a == '3' && (b == '0' || b == '1') then some (30 + dv b, rest)
    else if (a == '1' || a == '2') && isDigitCh b then some (dv a * 10 + dv b, rest)
    else if a == '0' && ('1' ≤ b && b ≤ '9') then some (dv b, rest)
    else if '1' ≤ a && a ≤ '9' then some (dv a, b :: rest)
    else none
  | [a] => if '1' ≤ a && a ≤ '9' then some (dv a, []) else none
  | [] => none

/-- `%H`: regex `2[0-3]|[0-1]\d|\d`. -/
def parseHour : List Char → Option (Nat × List Char)
  | a :: b :: rest =>
    if a == '2' && ('0' ≤ b && b ≤ '3') then some (20 + dv b, rest)
    else if (a == '0' || a == '1') && isDigitCh b then some (dv a * 10 + dv b, rest)
    else if isDigitCh a then some (dv a, b :: rest)
    else none
  | [a] => if isDigitCh a then some (dv a, []) else none
  | [] => none

/-- `%M`: regex `[0-5]\d|\d`. -/
def parseMinute : List Char → Option (Nat × List Char)
  | a :: b :: rest =>
    if ('0' ≤ a && a ≤ '5') && isDigitCh b then some (dv a * 10 + dv b, rest)
    else if isDigitCh a then some (dv a, b :: rest)
    else none
  | [a] => if isDigitCh a then some (dv a, []) else none
  | [] => none

/-- `%S`: regex `6[0-1]|[0-5]\d|\d`. -/
def parseSecond : List Char → Option (Nat × List Char)
  | a :: b :: rest =>
    if a == '6' && (b == '0' || b == '1') then some (60 + dv b, rest)
    else if ('0' ≤ a && a ≤ '5') && isDigitCh b then some (dv a * 10 + dv b, rest)
    else if isDigitCh a then some (dv a, b :: rest)
    else none
  | [a] => if isDigitCh a then some (dv a, []) else none
  | [] => none

/-- A literal format character. -/
def parseLit (c : Char) : List Char → Option (List Char)
  | x :: rest => if x == c then some rest else none
  | [] => none

/-- A literal space in the format: `\s+` (one or more whitespace
characters; the following pattern is never whitespace, so the greedy
run is exact). -/
def parseWs : List Char → Option (List Char)
  | c :: rest => if isPySpace c then some (rest.dropWhile isPySpace) else none
  | [] => none

/-- Exactly two digits (`\d\d`). -/
def parse2d : List Char → Option (Nat × List Char)
  | a :: b :: rest =>
    if isDigitCh a && isDigitCh b then some (dv a * 10 + dv b, rest) else none
  | _ => none

/-- Exactly `[0-5]\d`. -/
def parseMin59 : List Char → Option (Nat × List Char)
  | a :: b :: rest =>
    if ('0' ≤ a && a ≤ '5') && isDigitCh b then some (dv a * 10 + dv b, rest) else none
  | _ => none

/-- `(\.\d{1,6})` at the end of an offset: a dot and one to six digits.
More than six digits leaves unconverted data whichever way the regex
backtracks, so the greedy reading is exact. -/
def parseFrac : List Char → Option (List Char)
  | '.' :: rest =>
    let ds := rest.takeWhile isDigitCh
    if 1 ≤ ds.length && ds.length ≤ 6 then some (rest.dropWhile isDigitCh) else none
  | _ => none

/-- The optional `:?[0-5]\d` seconds part of `%z` (with its optional
fraction); on failure the enclosing optional group matches empty. -/
def parseZSeconds (l : List Char) : List Char :=
  let core := match l with
    | ':' :: rest => (parseMin59 rest).map (·.2)
    | _ => (parseMin59 l).map (·.2)
  match core with
  | some r1 =>
    match parseFrac r1 with
    | some r2 => r2
    | none => r1
  | none => l

/-- `%z`: `[+-]\d\d:?[0-5]\d(:?[0-5]\d(\.\d{1,6})?)?|Z`, returning the
offset's hour field (what the `timezone` constructor range-checks). -/
def parseZ : List Char → Option (Nat × List Char)
  | 'Z' :: rest => some (0, rest)
  | c :: rest =>
    if c == '+' || c == '-' then
      match parse2d rest with
      | none => none
      | some (hh, r1) =>
        let mm := match r1 with
          | ':' :: rr => parseMin59 rr
          | _ => parseMin59 r1
        match mm with
        | none => none
        | some (_, r2) => some (hh, parseZSeconds r2)
    else none
  | [] => none

/-- Whether a Gregorian year is a leap year. -/
def isLeap (y : Nat) : Bool := (y % 4 == 0 && y % 100 != 0) || y % 400 == 0

def daysInMonth (y m : Nat) : Nat :=
  if m == 2 then (if isLeap y then 29 else 28)
  else if m == 4 || m == 6 || m == 9 || m == 11 then 30
  else 31

/-- The `datetime`/`date` constructor's validation (`MINYEAR = 1`;
`%Y` caps the year at 9999). -/
def mkDate (y m d : Nat) : Option PDate :=
  if 1 ≤ y && 1 ≤ m && m ≤ 12 && 1 ≤ d && d ≤ daysInMonth y m then
    some ⟨y, m, d⟩
  else none

/-- The `datetime` constructor's validation of the time fields (the
regexes allow leap seconds 60/61, which `datetime` rejects). -/
def mkDateTime (y m d hh mi ss : Nat) : Option PDate :=
  if hh ≤ 23 && mi ≤ 59 && ss ≤ 59 then mkDate y m d else none

/-- `strptime(text, '%Y-%m-%d').date()`. -/
def fmtYmd (l : List Char) : Option PDate := do
  let (y, r1) ← parseY4 l
  let r2 ← parseLit '-' r1
  let (m, r3) ← parseMonth r2
  let r4 ← parseLit '-' r3
  let (d, r5) ← parseDay r4
  if r5.isEmpty then mkDate y m d else none

/-- `strptime(text, '%d.%m.%Y').date()`. -/
def fmtDmY (l : List Char) : Option PDate := do
  let (d, r1) ← parseDay l
  let r2 ← parseLit '.' r1
  let (m, r3) ← parseMonth r2
  let r4 ← parseLit '.' r3
  let (y, r5) ← parseY4 r4
  if r5.isEmpty then mkDate y m d else none

/-- `strptime(text, '%Y/%m/%d').date()`. -/
def fmtYmdSlash (l : List Char) : Option PDate := do
  let (y, r1) ← parseY4 l
  let r2 ← parseLit '/' r1
  let (m, r3) ← parseMonth r2
  let r4 ← parseLit '/' r3
  let (d, r5) ← parseDay r4
  if r5.isEmpty then mkDate y m d else none

/-- `strptime(text, '%Y-%m-%d %H:%M:%S').date()`. -/
def fmtYmdHMS (l : List Char) : Option PDate := do
  let (y, r1) ← parseY4 l
  let r2 ← parseLit '-' r1
  let (m, r3) ← parseMonth r2
  let r4 ← parseLit '-' r3
  let (d, r5) ← parseDay r4
  let r6 ← parseWs r5
  let (hh, r7) ← parseHour r6
  let r8 ← parseLit ':' r7
  let (mi, r9) ← parseMinute r8
  let r10 ← parseLit ':' r9
  let (ss, r11) ← parseSecond r10
  if r11.isEmpty then mkDateTime y m d hh mi ss else none

/-- `strptime(text, '%Y-%m-%d %H:%M:%S%z').date()`: as above plus the
offset, whose hours the `timezone` constructor bounds below 24. -/
def fmtYmdHMSz (l : List Char) : Option PDate := do
  let (y, r1) ← parseY4 l
  let r2 ← parseLit '-' r1
  let (m, r3) ← parseMonth r2
  let r4 ← parseLit '-' r3
  let (d, r5) ← parseDay r4
  let r6 ← parseWs r5
  let (hh, r7) ← parseHour r6
  let r8 ← parseLit ':' r7
  let (mi, r9) ← parseMinute r8
  let r10 ← parseLit ':' r9
  let (ss, r11) ← parseSecond r10
  let (zh, r12) ← parseZ r11
  if r12.isEmpty && zh ≤ 23 then mkDateTime y m d hh mi ss else none

/-- The `for fmt in fmts:` loop: the first pattern that parses wins. -/
def tryFormats (l : List Char) : Option PDate :=
  match fmtYmd l with
  | some d => some d
  | none =>
    match fmtDmY l with
    | some d => some d
    | none =>
      match fmtYmdSlash l with
      | some d => some d
      | none =>
        match fmtYmdHMS l with
        | some d => some d
        | none => fmtYmdHMSz l

/-- The timezone-stripping step of `safe_date`:
`if '+' in text: text = text.split('+')[0].strip()`. -/
def stripTz (text : List Char) : List Char :=
  if text.contains '+' then pyStripL (text.takeWhile (fun c => !(c == '+')))
  else text

/-- `safe_date` on the element's raw text. -/
def safe_date_chars (raw : List Char) : Option PDate :=
  tryFormats (stripTz (pyStripL raw))

/-- `safe_date` on a string. -/
def safe_date_str (raw : String) : Option PDate :=
  safe_date_chars raw.data

/-- `safe_date(element)`: `None` when the element or its text is absent. -/
def safe_date (element : Option Elem) : Option PDate :=
  match element with
  | none => none
  | some el =>
    match el.text with
    | none => none
    | some t => safe_date_chars t.data

/-! ### Entity builders of the richer-schema variant (`src/proektMAI.py`)

`safe_text` there defaults to `None`, and every call site passes only
the element, so the default is always `none`.  Relational wiring
(`certificate = cert`, `organization = cert.organization`) is carried as
explicit foreign identifiers. -/

/-- A `Supplement` row as built by `process_supplement`. -/
structure SupplementRow where
  certificate_id : Nat
  organization_id : Nat
  StatusName : Option String
  StatusCode : Option String
  Number : Option String
  SerialNumber : Option String
  FormNumber : Option String
  IssueDate : Option PDate
  IsForBranch : Option Bool
  Note : Option String
  EduOrgFullName : Option String
  EduOrgShortName : Option String
  EduOrgAddress : Option String
  EduOrgKPP : Option String

/-- `process_supplement(supp_elem, cert)` from `src/proektMAI.py`
(lines 384-400).  Note the source spelling `'SerialNubmer'` in the
lookup that fills the `SerialNumber` column. -/
def process_supplement (supp_elem : Elem) (certificate_id organization_id : Nat) :
    SupplementRow where
  certificate_id := certificate_id
  organization_id := organization_id
  StatusName := safe_text_mai (supp_elem.findTag "StatusName") none
  StatusCode := safe_text_mai (supp_elem.findTag "StatusCode") none
  Number := safe_text_mai (supp_elem.findTag "Number") none
  SerialNumber := safe_text_mai (supp_elem.findTag "SerialNubmer") none
  FormNumber := safe_text_mai (supp_elem.findTag "FormNumber") none
  IssueDate := safe_date (supp_elem.findTag "IssueDate")
  IsForBranch := safe_bool (supp_elem.findTag "IsForBranch")
  Note := safe_text_mai (supp_elem.findTag "Note") none
  EduOrgFullName := safe_text_mai (supp_elem.findTag "EduOrgFullName") none
  EduOrgShortName := safe_text_mai (supp_elem.findTag "EduOrgShortName") none
  EduOrgAddress := safe_text_mai (supp_elem.findTag "EduOrgAddress") none
  EduOrgKPP := safe_text_mai (supp_elem.findTag "EduOrgKPP") none

/-- An `EducationalProgram` row as built by the richer-schema
`process_program`. -/
structure ProgramRow where
  supplement_id : Nat
  TypeName : Option String
  EduLevelName : Option String
  ProgrammName : Option String
  ProgrammCode : Option String
  UGSName : Option String
  UGSCode : Option String
  EduNormativePeriod : Option String
  Qualification : Option String
  IsAccredited : Option Bool
  IsCanceled : Option Bool
  IsSuspended : Option Bool

/-- `process_program(prog_elem, supplement)` from `src/proektMAI.py`
(lines 402-416). -/
def process_program (prog_elem : Elem) (supplement_id : Nat) : ProgramRow where
  supplement_id := supplement_id
  TypeName := safe_text_mai (prog_elem.findTag "TypeName") none
  EduLevelName := safe_text_mai (prog_elem.findTag "EduLevelName") none
  ProgrammName := safe_text_mai (prog_elem.findTag "ProgrammName") none
  ProgrammCode := safe_text_mai (prog_elem.findTag "ProgrammCode") none
  UGSName := safe_text_mai (prog_elem.findTag "UGSName") none
  UGSCode := safe_text_mai (prog_elem.findTag "UGSCode") none
  EduNormativePeriod := safe_text_mai (prog_elem.findTag "EduNormativePeriod") none
  Qualification := safe_text_mai (prog_elem.findTag "Qualification") none
  IsAccredited := safe_bool (prog_elem.findTag "IsAccredited")
  IsCanceled := safe_bool (prog_elem.findTag "IsCanceled")
  IsSuspended := safe_bool (prog_elem.findTag "IsSuspended")

/-! ## Theorems -/

/-- Claim C1: organization-type classification follows the four-step
first-match priority: a secondary-education marker in the type-name gives
`secondary`; else a higher-education marker gives `higher`; else a
higher-education level marker in some program level name gives `higher`;
else the fallback is `secondary_pro` for college/technical-school markers
and `secondary` otherwise.  In particular a type-name containing "лицей"
always yields `secondary`, whatever else it contains. -/
theorem spec_c1 (tn : String) (lvls : List String) :
    (anyMarker secondaryMarkers tn = true → org_type_code tn lvls = "secondary")
  ∧ (anyMarker secondaryMarkers tn = false → anyMarker higherMarkers tn = true →
       org_type_code tn lvls = "higher")
  ∧ (anyMarker secondaryMarkers tn = false → anyMarker higherMarkers tn = false →
       anyHigherLevel lvls = true → org_type_code tn lvls = "higher")
  ∧ (anyMarker secondaryMarkers tn = false → anyMarker higherMarkers tn = false →
       anyHigherLevel lvls = false →
       org_type_code tn lvls =
         (if subStr tn "колледж" || subStr tn "техникум" then "secondary_pro"
          else "secondary"))
  ∧ (subStr tn "лицей" = true → org_type_code tn lvls = "secondary") := by
  refine ⟨?_, ?_, ?_, ?_, ?_⟩
  · intro h1; simp [org_type_code, h1]
  · intro h1 h2; simp [org_type_code, h1, h2]
  · intro h1 h2 h3; simp [org_type_code, h1, h2, h3]
  · intro h1 h2 h3; simp [org_type_code, h1, h2, h3]
  · intro h
    have h1 : anyMarker secondaryMarkers tn = true := by
      refine List.any_eq_true.mpr ⟨"лицей", ?_, h⟩
      simp [secondaryMarkers]
    simp [org_type_code, h1]

/-- Witness for C1: a type-name containing both a higher-education marker
and "лицей" classifies as `secondary`. -/
theorem spec_c1_witness : org_type_code "университетский лицей" [] = "secondary" :=
  (spec_c1 "университетский лицей" []).2.2.2.2 (by decide)

lemma lookup_dictSet (st : FState) (k v : String) :
    (dictSet st k v).lookup k = some v := by
  induction st with
  | nil => simp [dictSet, List.lookup]
  | cons p rest ih =>
    obtain ⟨k', v'⟩ := p
    by_cases h : k' = k
    · subst h
      simp [dictSet, List.lookup]
    · have hb : (k' == k) = false := by simp [h]
      have hb2 : (k == k') = false := by simp [Ne.symm h]
      simp [dictSet, hb, List.lookup, hb2, ih]

/-- Claim C2: the change detector is a no-op returning false when the
stored fingerprint equals the fresh hash, otherwise it persists the new
fingerprint (one save) and returns true; a second run over an unchanged
file performs zero further saves. -/
theorem spec_c2_thm (hashOf : String → String) (st : FState) (fp : String) :
    (st.lookup fp = some (hashOf fp) →
       check_for_updates hashOf st fp = ⟨false, st, 0⟩)
  ∧ (st.lookup fp ≠ some (hashOf fp) →
       (check_for_updates hashOf st fp).changed = true
     ∧ (check_for_updates hashOf st fp).saves = 1
     ∧ (check_for_updates hashOf st fp).state.lookup fp = some (hashOf fp))
  ∧ ((check_for_updates hashOf (check_for_updates hashOf st fp).state fp).changed = false
   ∧ (check_for_updates hashOf (check_for_updates hashOf st fp).state fp).saves = 0) := by
  refine ⟨?_, ?_, ?_⟩
  · intro h
    simp [check_for_updates, h]
  · intro h
    cases hl : st.lookup fp with
    | none => simp [check_for_updates, hl, lookup_dictSet]
    | some hsh =>
      have hne : hsh ≠ hashOf fp := fun e => h (by rw [hl, e])
      simp [check_for_updates, hl, hne, lookup_dictSet]
  · cases hl : st.lookup fp with
    | none => simp [check_for_updates, hl, lookup_dictSet]
    | some hsh =>
      by_cases he : hsh = hashOf fp
      · subst he
        simp [check_for_updates, hl]
      · simp [check_for_updates, hl, he, lookup_dictSet]

/-- Witness for C2: an up-to-date fingerprint short-circuits. -/
theorem spec_c2_witness :
    check_for_updates (fun _ => "h") [("f", "h")] "f" = ⟨false, [("f", "h")], 0⟩ :=
  (spec_c2_thm (fun _ => "h") [("f", "h")] "f").1 (by decide)

lemma stepRecord_committed_extend (r : RecOutcome) (s : Session) :
    ∃ t, (stepRecord r s).committed = s.committed ++ t := by
  cases r with
  | fail staged => exact ⟨[], by simp [stepRecord]⟩
  | ok ents cf =>
    by_cases hc : (s.pending.length + ents.length) % 100 = 0
    · cases cf with
      | true => exact ⟨[], by simp [stepRecord, hc]⟩
      | false => exact ⟨s.pending ++ ents, by simp [stepRecord, hc]⟩
    · exact ⟨[], by simp [stepRecord, hc]⟩

lemma steps_committed_extend (rs : List RecOutcome) :
    ∀ s : Session, ∃ t, (steps rs s).committed = s.committed ++ t := by
  induction rs with
  | nil => intro s; exact ⟨[], by simp [steps]⟩
  | cons r rest ih =>
    intro s
    obtain ⟨t1, h1⟩ := stepRecord_committed_extend r s
    obtain ⟨t2, h2⟩ := ih (stepRecord r s)
    refine ⟨t1 ++ t2, ?_⟩
    have hsteps : steps (r :: rest) s = steps rest (stepRecord r s) := by
      simp [steps]
    rw [hsteps, h2, h1, List.append_assoc]

/-- Claim C3: a record that raises rolls back the uncommitted batch and
the loop continues with the next record from a clean pending state;
committed rows only ever grow (previously committed batches stay
intact); and a commit failure when the batch threshold is reached leaves
the committed rows unchanged and the batch rolled back. -/
theorem spec_c3_thm (pre post : List RecOutcome) (staged : List Nat) (s : Session) :
    steps (pre ++ RecOutcome.fail staged :: post) s
      = steps post ⟨(steps pre s).committed, []⟩
  ∧ (∃ t, (steps (pre ++ RecOutcome.fail staged :: post) s).committed
        = s.committed ++ t)
  ∧ (∀ (ents : List Nat) (s0 : Session),
       ((s0.pending ++ ents).length % 100 == 0) = true →
       stepRecord (RecOutcome.ok ents true) s0 = ⟨s0.committed, []⟩) := by
  refine ⟨?_, ?_, ?_⟩
  · have hsplit : steps (pre ++ RecOutcome.fail staged :: post) s
        = steps post (stepRecord (RecOutcome.fail staged) (steps pre s)) := by
      simp [steps, List.foldl_append]
    rw [hsplit]
    rfl
  · exact steps_committed_extend _ s
  · intro ents s0 h
    have h2 : (s0.pending.length + ents.length) % 100 = 0 := by simpa using h
    simp [stepRecord, h2]

/-- Witness for C3: a failing commit of a full batch leaves committed
rows intact and clears the batch. -/
theorem spec_c3_witness :
    stepRecord (RecOutcome.ok (List.range 100) true) ⟨[5], []⟩ = ⟨[5], []⟩ :=
  (spec_c3_thm [] [] [] ⟨[], []⟩).2.2 (List.range 100) ⟨[5], []⟩ (by decide)

/-- Claim C4: a branch is always appended to the persisted rows (never
rejected); its parent link is the first already-visible row matching the
head identifier by primary identifier or INN, or absent when no row
matches; in particular a head identifier equal to a persisted row's INN
(with no earlier match) links the branch to that row's identity. -/
theorem spec_c4_thm (persisted : List OrgRow) (newId inn : String)
    (isBranch : Option Bool) (headId : String) :
    (∃ row : OrgRow,
        persistOrg persisted newId inn isBranch headId = persisted ++ [row]
      ∧ row.oid = newId ∧ row.inn = inn
      ∧ (row.parent_id = none
         ∨ ∃ p, resolveParent (persisted ++ [⟨newId, inn, none⟩]) headId = some p
              ∧ row.parent_id = some p.oid))
  ∧ (isBranch = some true →
       resolveParent (persisted ++ [⟨newId, inn, none⟩]) headId = none →
       persistOrg persisted newId inn isBranch headId = persisted ++ [⟨newId, inn, none⟩])
  ∧ (∀ (pre post : List OrgRow) (p : OrgRow), isBranch = some true →
       persisted = pre ++ p :: post →
       (∀ q ∈ pre, q.oid ≠ headId ∧ q.inn ≠ headId) →
       p.inn = headId →
       persistOrg persisted newId inn isBranch headId
         = persisted ++ [⟨newId, inn, some p.oid⟩]) := by
  refine ⟨?_, ?_, ?_⟩
  · by_cases hb : (isBranch == some true) = true
    · cases hr : resolveParent (persisted ++ [⟨newId, inn, none⟩]) headId with
      | none =>
        exact ⟨⟨newId, inn, none⟩, by simp [persistOrg, hb, hr], rfl, rfl, Or.inl rfl⟩
      | some p =>
        exact ⟨⟨newId, inn, some p.oid⟩, by simp [persistOrg, hb, hr], rfl, rfl,
          Or.inr ⟨p, rfl, rfl⟩⟩
    · have hb' : (isBranch == some true) = false := by simpa using hb
      exact ⟨⟨newId, inn, none⟩, by simp [persistOrg, hb'], rfl, rfl, Or.inl rfl⟩
  · intro hb hr
    simp [persistOrg, hb, hr]
  · intro pre post p hb hper hpre hinn
    subst hper
    have hfindpre : (pre.find? fun o => o.oid == headId || o.inn == headId) = none := by
      refine List.find?_eq_none.mpr (fun q hq => ?_)
      have hq' := hpre q hq
      simp [hq'.1, hq'.2]
    have hres2 : resolveParent (pre ++ p :: (post ++ [⟨newId, inn, none⟩])) headId
        = some p := by
      unfold resolveParent
      rw [List.find?_append, hfindpre, Option.none_or]
      simp [List.find?_cons, hinn]
    simp [persistOrg, hb, hres2]

/-- Witness for C4: a branch whose head identifier equals a persisted
row's INN links to that row. -/
theorem spec_c4_witness :
    persistOrg [⟨"10", "7705", none⟩] "11" "5404" (some true) "7705"
      = [⟨"10", "7705", none⟩, ⟨"11", "5404", some "10"⟩] :=
  (spec_c4_thm [⟨"10", "7705", none⟩] "11" "5404" (some true) "7705").2.2
    [] [] ⟨"10", "7705", none⟩ rfl rfl (by simp) rfl

lemma keepOrg_iff (o : OrgView) :
    keepOrg o = true ↔ (o.code = "higher" ∨ o.isBranch = some true) := by
  cases o with
  | mk code isBranch =>
    simp [keepOrg, pyTruthy, Bool.not_and, Bool.or_eq_true, bne]

/-- Claim C5: the persisted set of the first variant keeps exactly the
organizations typed `higher` or flagged as a branch; all others are
excluded (a filtering decision, not an error). -/
theorem spec_c5 (l : List OrgView) (o : OrgView) :
    o ∈ filterOrgs l ↔ o ∈ l ∧ (o.code = "higher" ∨ o.isBranch = some true) := by
  simp [filterOrgs, List.mem_filter, keepOrg_iff]

/-- Witness for C5: a higher-education organization is kept. -/
theorem spec_c5_witness :
    (⟨"higher", none⟩ : OrgView) ∈ filterOrgs [⟨"higher", none⟩] :=
  (spec_c5 [⟨"higher", none⟩] ⟨"higher", none⟩).mpr ⟨by simp, Or.inl rfl⟩

/-- Claim C6, divergence: the form classifier can never answer
`part_time`, because the full-time keyword "очная" is a substring of the
part-time keyword "заочная" and is checked first; the part-time form
text "заочная" and the mixed form text "очно-заочная" both classify as
`full_time`, against the claimed mapping and against the seeded
`EducationForm` reference rows. -/
theorem spec_c6_divergence :
    form_code "заочная" = "full_time"
  ∧ form_code "очно-заочная" = "full_time"
  ∧ (∀ fn : String, form_code fn ≠ "part_time") := by
  refine ⟨by decide, by decide, ?_⟩
  intro fn h
  unfold form_code at h
  by_cases h1 : subStr fn "очная" = true
  · simp [h1] at h
  · have h1' : subStr fn "очная" = false := by simpa using h1
    by_cases h2 : subStr fn "заочная" = true
    · have hoz : containsSub "заочная".data "очная".data = true := by decide
      have hfn : subStr fn "очная" = true := by
        unfold subStr
        exact (containsSub_correct _ _).mpr
          (((containsSub_correct _ _).mp hoz).trans ((containsSub_correct _ _).mp h2))
      rw [hfn] at h1'
      cases h1'
    · have h2' : subStr fn "заочная" = false := by simpa using h2
      simp only [h1', h2', Bool.false_eq_true, if_false] at h
      split at h
      · exact absurd h (by decide)
      · exact absurd h (by decide)

/-- Counterexample for C7 as frozen: the element text " 1" is outside
{"0","1"} yet coerces to true, because `safe_bool` strips whitespace
before comparing. -/
theorem spec_c7_counterexample :
    safe_bool (some ⟨"IsAccredited", some " 1", []⟩) = some true
  ∧ (" 1" : String) ≠ "1" ∧ (" 1" : String) ≠ "0" :=
  ⟨by decide, by decide, by decide⟩

/-- Claim C7 amended: after trimming surrounding whitespace, "1" maps to
true, "0" to false, and everything else — including an absent element or
absent text — to unknown; true/false can only arise from a trimmed text
in {"0","1"}, so coercion never defaults to false; and a program whose
`IsAccredited` element is absent is built with `IsAccredited = none`. -/
theorem spec_c7_thm (e : Option Elem) :
    (∀ el t, e = some el → el.text = some t →
       safe_bool e = (if pyStrip t = "1" then some true
                      else if pyStrip t = "0" then some false else none))
  ∧ (e = none → safe_bool e = none)
  ∧ (∀ el, e = some el → el.text = none → safe_bool e = none)
  ∧ (safe_bool e ≠ none →
       ∃ el t, e = some el ∧ el.text = some t ∧ (pyStrip t = "1" ∨ pyStrip t = "0"))
  ∧ (∀ (prog : Elem) (sid : Nat), (∀ c ∈ prog.children, c.tag ≠ "IsAccredited") →
       (process_program prog sid).IsAccredited = none) := by
  refine ⟨?_, ?_, ?_, ?_, ?_⟩
  · intro el t he ht
    subst he
    simp [safe_bool, ht, beq_iff_eq]
  · intro h; subst h; rfl
  · intro el he ht
    subst he
    simp [safe_bool, ht]
  · intro h
    cases e with
    | none => exact absurd rfl h
    | some el =>
      cases ht : el.text with
      | none => exact absurd (by simp [safe_bool, ht]) h
      | some t =>
        refine ⟨el, t, rfl, ht, ?_⟩
        by_cases h1 : pyStrip t = "1"
        · exact Or.inl h1
        · by_cases h0 : pyStrip t = "0"
          · exact Or.inr h0
          · exact absurd (by simp [safe_bool, ht, beq_iff_eq, h1, h0]) h
  · intro prog sid h
    have hf : prog.findTag "IsAccredited" = none := by
      unfold Elem.findTag
      exact List.find?_eq_none.mpr (fun c hc => by simp [h c hc])
    simp [process_program, hf, safe_bool]

/-- Witness for C7: a program element with no `IsAccredited` child gets
`IsAccredited = none`. -/
theorem spec_c7_witness :
    (process_program ⟨"EducationalProgram", none, []⟩ 7).IsAccredited = none :=
  (spec_c7_thm none).2.2.2.2 ⟨"EducationalProgram", none, []⟩ 7 (by simp)

/-- Counterexample for C8 as frozen: "2021-05-17" parses, but appending
the trailing timezone offset "-03:00" makes coercion return unknown
instead of the same date — only offsets introduced by '+' are stripped. -/
theorem spec_c8_counterexample :
    safe_date_str "2021-05-17" = some ⟨2021, 5, 17⟩
  ∧ safe_date_str ("2021-05-17" ++ "-03:00") = none :=
  ⟨by decide, by decide⟩

lemma dropWhile_append_keep (p : Char → Bool) (l1 l2 : List Char)
    (h : ∃ x ∈ l1, p x = false) :
    (l1 ++ l2).dropWhile p = l1.dropWhile p ++ l2 := by
  induction l1 with
  | nil => simp at h
  | cons a t ih =>
    by_cases hpa : p a = true
    · have h' : ∃ x ∈ t, p x = false := by
        obtain ⟨x, hx, hpx⟩ := h
        rcases List.mem_cons.mp hx with rfl | hxt
        · rw [hpa] at hpx; cases hpx
        · exact ⟨x, hxt, hpx⟩
      simp [List.dropWhile_cons, hpa, ih h']
    · have hpa' : p a = false := by simpa using hpa
      simp [List.dropWhile_cons, hpa']

lemma takeWhile_append_all (p : Char → Bool) (l1 l2 : List Char)
    (h : ∀ x ∈ l1, p x = true) :
    (l1 ++ l2).takeWhile p = l1 ++ l2.takeWhile p := by
  induction l1 with
  | nil => simp
  | cons a t ih =>
    have hpa : p a = true := h a (by simp)
    have h' : ∀ x ∈ t, p x = true := fun x hx => h x (by simp [hx])
    simp [List.takeWhile_cons, hpa, ih h']

lemma stripRightL_sublist (l : List Char) : (stripRightL l).Sublist l := by
  have h2 := (List.dropWhile_sublist (l := l.reverse) isPySpace).reverse
  rwa [List.reverse_reverse] at h2

lemma pyStripL_self_head (a : Char) (t : List Char)
    (hs : pyStripL (a :: t) = a :: t) : isPySpace a = false := by
  by_contra hcon
  have ha : isPySpace a = true := by simpa using hcon
  have h1 : pyStripL (a :: t) = stripRightL (t.dropWhile isPySpace) := by
    simp [pyStripL, List.dropWhile_cons, ha]
  have h2 : (stripRightL (t.dropWhile isPySpace)).length ≤ t.length :=
    ((stripRightL_sublist _).trans (List.dropWhile_sublist _)).length_le
  rw [← h1, hs] at h2
  simp at h2

lemma stripRightL_cons_plus (r : List Char) :
    stripRightL ('+' :: r) = '+' :: stripRightL r := by
  show (('+' :: r).reverse.dropWhile isPySpace).reverse
      = '+' :: (r.reverse.dropWhile isPySpace).reverse
  rw [List.reverse_cons, List.dropWhile_append]
  split
  · next he =>
    have h0 : r.reverse.dropWhile isPySpace = [] := List.isEmpty_iff.mp he
    rw [h0]
    decide
  · next he =>
    simp [List.reverse_append]

lemma pyStripL_append_plus (a : Char) (t r : List Char)
    (hna : isPySpace a = false) :
    pyStripL ((a :: t) ++ '+' :: r) = (a :: t) ++ '+' :: stripRightL r := by
  have h1 : (((a :: t) ++ '+' :: r).dropWhile isPySpace) = (a :: t) ++ '+' :: r := by
    simp [List.dropWhile_cons, hna]
  rw [pyStripL, h1, stripRightL, List.reverse_append,
    dropWhile_append_keep isPySpace (('+' :: r).reverse) ((a :: t).reverse)
      ⟨'+', by simp, by decide⟩,
    List.reverse_append, List.reverse_reverse]
  show (a :: t) ++ stripRightL ('+' :: r) = (a :: t) ++ '+' :: stripRightL r
  rw [stripRightL_cons_plus]

lemma stripTz_no_plus (l : List Char) (h : l.contains '+' = false) :
    stripTz l = l := by
  have h' : ¬ l.contains '+' = true := by rw [h]; exact Bool.false_ne_true
  rw [stripTz, if_neg h']

lemma stripTz_append_plus (sl srr : List Char)
    (hplus : sl.contains '+' = false) (hs : pyStripL sl = sl) :
    stripTz (sl ++ '+' :: srr) = sl := by
  have hcont : (sl ++ '+' :: srr).contains '+' = true := by simp
  rw [stripTz, if_pos hcont]
  have hnone : '+' ∉ sl := by simpa using hplus
  have hall : ∀ x ∈ sl, (!(x == '+')) = true := by
    intro x hx
    have hne : x ≠ '+' := fun he => hnone (he ▸ hx)
    simp [hne]
  rw [takeWhile_append_all _ _ _ hall]
  have htake : ('+' :: srr).takeWhile (fun c => !(c == '+')) = [] := by
    simp [List.takeWhile_cons]
  rw [htake, List.append_nil, hs]

/-- Claim C8 amended: for a date string that contains no '+', parses in
one of the supported patterns, and is already stripped, appending any
'+'-led trailing timezone offset leaves the coerced calendar date
unchanged (everything from the first '+' on is discarded before
parsing); a '-'-led offset appended to a date-only string instead makes
coercion return unknown (see the counterexample). -/
theorem spec_c8_thm (s off : String) (d : PDate)
    (hstrip : pyStrip s = s)
    (hplus : s.data.contains '+' = false)
    (hoff : ∃ r, off.data = '+' :: r)
    (hparse : tryFormats s.data = some d) :
    safe_date_str (s ++ off) = some d ∧ safe_date_str s = some d := by
  obtain ⟨r, hr⟩ := hoff
  have hdata : pyStripL s.data = s.data := congrArg String.data hstrip
  have hne : s.data ≠ [] := by
    intro h0
    rw [h0] at hparse
    rw [show tryFormats ([] : List Char) = none from rfl] at hparse
    cases hparse
  obtain ⟨a, t, hsl⟩ : ∃ a t, s.data = a :: t := by
    cases hd : s.data with
    | nil => exact absurd hd hne
    | cons a t => exact ⟨a, t, rfl⟩
  have hna : isPySpace a = false := pyStripL_self_head a t (hsl ▸ hdata)
  constructor
  · show tryFormats (stripTz (pyStripL ((s ++ off).data))) = some d
    have happ : (s ++ off).data = s.data ++ '+' :: r := by
      rw [show (s ++ off).data = s.data ++ off.data from rfl, hr]
    rw [happ, hsl, pyStripL_append_plus a t r hna, ← hsl,
      stripTz_append_plus s.data (stripRightL r) hplus hdata, hparse]
  · show tryFormats (stripTz (pyStripL s.data)) = some d
    rw [hdata, stripTz_no_plus s.data hplus, hparse]

/-- Witness for C8: "2021-05-17" coerces to the same date with and
without a trailing "+03:00". -/
theorem spec_c8_witness :
    safe_date_str ("2021-05-17" ++ "+03:00") = some ⟨2021, 5, 17⟩
  ∧ safe_date_str "2021-05-17" = some ⟨2021, 5, 17⟩ :=
  spec_c8_thm "2021-05-17" "+03:00" ⟨2021, 5, 17⟩ (by decide)
    (by decide) ⟨"03:00".data, rfl⟩ (by decide)

/-- Counterexample for C9 as frozen: the richer-schema `safe_text`
returns the text untrimmed (" a ", not "a"), and the first variant's
`safe_text` returns "" — not the caller-supplied default "X" — for a
present element whose text trims to empty. -/
theorem spec_c9_counterexample :
    safe_text_mai (some ⟨"EduOrgFullName", some " a ", []⟩) (some "X") = some " a "
  ∧ pyStrip " a " = "a"
  ∧ (" a " : String) ≠ "a"
  ∧ safe_text (some ⟨"FullName", some "   ", []⟩) "X" = ""
  ∧ ("" : String) ≠ "X" :=
  ⟨rfl, by decide, by decide, by decide, by decide⟩

/-- Claim C9 amended: neither variant fails; `src/boba.py`'s coercion
returns the trimmed text whenever the element and its text are present
(even if the trimmed text is empty) and the default exactly when the
element or its text is absent; `src/proektMAI.py`'s variant returns the
raw untrimmed text (possibly absent) whenever the element is present and
the default only when the element is absent. -/
theorem spec_c9_thm (d tag : String) (dm txt : Option String) (ch : List Elem) :
    safe_text none d = d
  ∧ safe_text (some ⟨tag, none, ch⟩) d = d
  ∧ (∀ t, safe_text (some ⟨tag, some t, ch⟩) d = pyStrip t)
  ∧ safe_text_mai none dm = dm
  ∧ safe_text_mai (some ⟨tag, txt, ch⟩) dm = txt :=
  ⟨rfl, rfl, fun _ => rfl, rfl, rfl⟩

/-- Claim C10: `process_supplement` fills the `SerialNumber` column from
a child spelled 'SerialNubmer', so any supplement element without such a
child — in particular one carrying its serial under the standard
'SerialNumber' tag — persists with `SerialNumber = none`. -/
theorem spec_c10_thm (supp_elem : Elem) (cid oid : Nat)
    (h : ∀ c ∈ supp_elem.children, c.tag ≠ "SerialNubmer") :
    (process_supplement supp_elem cid oid).SerialNumber = none := by
  have hf : supp_elem.findTag "SerialNubmer" = none := by
    unfold Elem.findTag
    exact List.find?_eq_none.mpr (fun c hc => by simp [h c hc])
  simp [process_supplement, hf, safe_text_mai]

/-- Witness for C10: a supplement whose serial sits in a 'SerialNumber'
child still persists with `SerialNumber = none`. -/
theorem spec_c10_witness :
    (process_supplement
       ⟨"Supplement", none, [⟨"SerialNumber", some "123456", []⟩]⟩ 1 2).SerialNumber
      = none :=
  spec_c10_thm ⟨"Supplement", none, [⟨"SerialNumber", some "123456", []⟩]⟩ 1 2 (by decide)
